import Mathlib

/-!
Shallow embedding of the JSON data manager (`main.go` of
coffeecms/coffee_json_data_manager).

The program ingests newline-delimited JSON and filters records with typed
conditions.  The embedding models:

* dynamically typed Go values (`GoVal`): values decoded from JSON
  (`float64`, `string`, `bool`, `nil`, arrays, objects) together with Go
  `int`, which can appear as a condition's comparison value.  JSON numbers
  are decoded by Go into `float64`; the embedding represents that payload
  as an exact rational, which agrees with `float64` on every value the
  development evaluates (small integers, all exactly representable);
* the fixed-layout parsers `time.Parse("2006-01-02 15:04:05", _)` and
  `time.Parse("2006-01-02", _)`, returning a chronologically ordered key;
* the condition evaluators `applyIntCondition`, `applyStringCondition`,
  `applyDateTimeCondition`, `applyDateCondition`, `applyBoolCondition`
  and the record matcher `matchConditions`;
* the two load passes `LoadDataInMemory` and `LoadDataInSplitMode` over a
  source file modelled as the sequence of its lines, each line carrying
  its byte length and the result of `json.Unmarshal` (the decoder itself
  is the external `encoding/json` library, treated as an oracle).

Go maps are modelled as association lists with overwrite-on-insert
(`mapSet`) and first-match lookup (`List.lookup`); `json.Unmarshal` never
produces duplicate keys, so the records appearing here have unique field
names.
-/

/-- A dynamically typed Go value (`interface{}`).  `goFloat` is a JSON
number decoded to `float64` (payload modelled as an exact rational);
`goInt` is a Go `int`, which only arises in condition comparison values,
never from JSON decoding. -/
inductive GoVal where
  | goFloat (q : ℚ)
  | goInt (n : ℤ)
  | goString (s : String)
  | goBool (b : Bool)
  | goNull
  | goArr (elems : List GoVal)
  | goObj (fields : List (String × GoVal))

/-- One decoded JSON object: `map[string]interface{}` with unique keys. -/
abbrev Record := List (String × GoVal)

/-- `FilterCondition` from `main.go`. -/
structure FilterCondition where
  key : String
  valueType : String
  operator : String
  value : GoVal

/-- Digit value of an ASCII digit character, as used by Go's time layout
parser on fixed-width numeric fields. -/
def digitVal (c : Char) : Option ℕ :=
  if c.isDigit then some (c.toNat - 48) else none

/-- Leap-year test of the proleptic Gregorian calendar (Go `isLeap`). -/
def isLeap (y : ℕ) : Bool :=
  y % 4 == 0 && (y % 100 != 0 || y % 400 == 0)

/-- Number of days in a month, matching Go's per-month range check. -/
def daysInMonth (y m : ℕ) : ℕ :=
  match m with
  | 1 => 31 | 2 => if isLeap y then 29 else 28
  | 3 => 31 | 4 => 30 | 5 => 31 | 6 => 30 | 7 => 31
  | 8 => 31 | 9 => 30 | 10 => 31 | 11 => 30 | 12 => 31
  | _ => 0

/-- Chronologically ordered key of a calendar date: strictly monotone in
(year, month, day) lexicographic order because months are below 100 and
days below 100. -/
def dateKey (y m d : ℕ) : ℕ := (y * 100 + m) * 100 + d

/-- Chronologically ordered key of a date-time, seconds granularity. -/
def dateTimeKey (y m d h mi s : ℕ) : ℕ :=
  ((dateKey y m d * 100 + h) * 100 + mi) * 100 + s

/-- `time.Parse("2006-01-02", s)`: exactly ten characters
`YYYY-MM-DD`, all-digit components, month in 1..12 and day within the
month's length; any other string is a parse error (`none`). -/
def parseDate (s : String) : Option ℕ :=
  match s.data with
  | [y1, y2, y3, y4, '-', m1, m2, '-', d1, d2] =>
    match digitVal y1, digitVal y2, digitVal y3, digitVal y4,
          digitVal m1, digitVal m2, digitVal d1, digitVal d2 with
    | some a, some b, some c, some d, some e, some f, some g, some h =>
      let y := ((a * 10 + b) * 10 + c) * 10 + d
      let mo := e * 10 + f
      let dy := g * 10 + h
      if 1 ≤ mo ∧ mo ≤ 12 ∧ 1 ≤ dy ∧ dy ≤ daysInMonth y mo then
        some (dateKey y mo dy)
      else none
    | _, _, _, _, _, _, _, _ => none
  | _ => none

/-- `time.Parse("2006-01-02 15:04:05", s)`: exactly nineteen characters
`YYYY-MM-DD HH:MM:SS` with Go's component range checks. -/
def parseDateTime (s : String) : Option ℕ :=
  match s.data with
  | [y1, y2, y3, y4, '-', m1, m2, '-', d1, d2, ' ',
     h1, h2, ':', i1, i2, ':', s1, s2] =>
    match digitVal y1, digitVal y2, digitVal y3, digitVal y4,
          digitVal m1, digitVal m2, digitVal d1, digitVal d2,
          digitVal h1, digitVal h2, digitVal i1, digitVal i2,
          digitVal s1, digitVal s2 with
    | some a, some b, some c, some d, some e, some f, some g, some h,
      some p, some q, some u, some v, some w, some x =>
      let y := ((a * 10 + b) * 10 + c) * 10 + d
      let mo := e * 10 + f
      let dy := g * 10 + h
      let hh := p * 10 + q
      let mi := u * 10 + v
      let ss := w * 10 + x
      if 1 ≤ mo ∧ mo ≤ 12 ∧ 1 ≤ dy ∧ dy ≤ daysInMonth y mo ∧
         hh ≤ 23 ∧ mi ≤ 59 ∧ ss ≤ 59 then
        some (dateTimeKey y mo dy hh mi ss)
      else none
    | _, _, _, _, _, _, _, _, _, _, _, _, _, _ => none
  | _ => none

/-- Does the character list `pat` begin the character list `text`? -/
def leadsWith : List Char → List Char → Bool
  | [], _ => true
  | _ :: _, [] => false
  | p :: ps, c :: cs => p == c && leadsWith ps cs

/-- Does the character list `pat` occur contiguously inside `text`?
`strings.Contains` on valid UTF-8 text coincides with this character-level
substring test. -/
def occursIn (pat : List Char) : List Char → Bool
  | [] => leadsWith pat []
  | c :: cs => leadsWith pat (c :: cs) || occursIn pat cs

/-- `strings.Contains s sub`. -/
def strContains (s sub : String) : Bool :=
  occursIn sub.data s.data

/-- `applyIntCondition` from `main.go`: the field must assert to
`float64`, the comparison value to Go `int`; the `int` is widened to
`float64` before comparing. -/
def applyIntCondition (fieldValue : GoVal) (operator : String) (value : GoVal) : Bool :=
  match fieldValue with
  | .goFloat fieldVal =>
    match value with
    | .goInt n =>
      let compareVal : ℚ := (n : ℚ)
      match operator with
      | ">" => decide (compareVal < fieldVal)
      | ">=" => decide (compareVal ≤ fieldVal)
      | "<" => decide (fieldVal < compareVal)
      | "<=" => decide (fieldVal ≤ compareVal)
      | "==" => decide (fieldVal = compareVal)
      | _ => false
    | _ => false
  | _ => false

/-- `applyStringCondition` from `main.go`. -/
def applyStringCondition (fieldValue : GoVal) (operator : String) (value : GoVal) : Bool :=
  match fieldValue with
  | .goString fieldVal =>
    match value with
    | .goString compareVal =>
      match operator with
      | "contains" => strContains fieldVal compareVal
      | "==" => fieldVal == compareVal
      | _ => false
    | _ => false
  | _ => false

/-- `applyDateTimeCondition` from `main.go`: both sides must be strings
parsing in the fixed layout; comparisons are chronological. -/
def applyDateTimeCondition (fieldValue : GoVal) (operator : String) (value : GoVal) : Bool :=
  match fieldValue with
  | .goString fieldValStr =>
    match parseDateTime fieldValStr with
    | none => false
    | some fieldVal =>
      match value with
      | .goString compareValStr =>
        match parseDateTime compareValStr with
        | none => false
        | some compareVal =>
          match operator with
          | ">" => decide (compareVal < fieldVal)
          | ">=" => decide (compareVal < fieldVal) || decide (fieldVal = compareVal)
          | "<" => decide (fieldVal < compareVal)
          | "<=" => decide (fieldVal < compareVal) || decide (fieldVal = compareVal)
          | "==" => decide (fieldVal = compareVal)
          | _ => false
      | _ => false
  | _ => false

/-- `applyDateCondition` from `main.go`. -/
def applyDateCondition (fieldValue : GoVal) (operator : String) (value : GoVal) : Bool :=
  match fieldValue with
  | .goString fieldValStr =>
    match parseDate fieldValStr with
    | none => false
    | some fieldVal =>
      match value with
      | .goString compareValStr =>
        match parseDate compareValStr with
        | none => false
        | some compareVal =>
          match operator with
          | ">" => decide (compareVal < fieldVal)
          | ">=" => decide (compareVal < fieldVal) || decide (fieldVal = compareVal)
          | "<" => decide (fieldVal < compareVal)
          | "<=" => decide (fieldVal < compareVal) || decide (fieldVal = compareVal)
          | "==" => decide (fieldVal = compareVal)
          | _ => false
      | _ => false
  | _ => false

/-- `applyBoolCondition` from `main.go`. -/
def applyBoolCondition (fieldValue : GoVal) (operator : String) (value : GoVal) : Bool :=
  match fieldValue with
  | .goBool fieldVal =>
    match value with
    | .goBool compareVal =>
      match operator with
      | "==" => fieldVal == compareVal
      | _ => false
    | _ => false
  | _ => false

/-- The body of `matchConditions`'s loop for one condition: field lookup
(absence, including a field that was never in the JSON object, fails the
condition) followed by the `ValueType` dispatch.  The Go method's
`DataManager` receiver is unused, so the matcher is a plain function. -/
def evalCondition (record : Record) (c : FilterCondition) : Bool :=
  match record.lookup c.key with
  | none => false
  | some fieldValue =>
    match c.valueType with
    | "int" => applyIntCondition fieldValue c.operator c.value
    | "string" => applyStringCondition fieldValue c.operator c.value
    | "datetime" => applyDateTimeCondition fieldValue c.operator c.value
    | "date" => applyDateCondition fieldValue c.operator c.value
    | "bool" => applyBoolCondition fieldValue c.operator c.value
    | _ => false

/-- `matchConditions` from `main.go`: iterate the conditions, returning
`false` at the first failing one and `true` when all pass. -/
def matchConditions (record : Record) : List FilterCondition → Bool
  | [] => true
  | c :: rest =>
    if evalCondition record c then matchConditions record rest else false


/-- Go map assignment `m[k] = v` on an association-list model: overwrite
the existing binding if present, otherwise append the new binding. -/
def mapSet {α : Type} : List (String × α) → String → α → List (String × α)
  | [], k, v => [(k, v)]
  | (k1, v1) :: rest, k, v =>
    if k1 = k then (k, v) :: rest else (k1, v1) :: mapSet rest k v

/-- The secondary index `map[string]map[string]int`. -/
abbrev IndexMap := List (String × List (String × ℕ))

/-- The mutable fields of `DataManager` that the load operations touch
(`mu` and `wg` carry no data).  `maxRAMUsage` and `currentUsage` are Go
`int64`; the byte counts involved never approach `2^63`, so they are
modelled as unbounded integers. -/
structure DataManager where
  data : List (String × Record)
  maxRAMUsage : ℤ
  currentUsage : ℤ
  mode : String
  index : IndexMap

/-- `NewDataManager`: empty maps, zero usage (Go zero value). -/
def newDataManager (maxRAMUsage : ℤ) (mode : String) : DataManager :=
  { data := [], maxRAMUsage := maxRAMUsage, currentUsage := 0,
    mode := mode, index := [] }

/-- One line of the newline-delimited source: the raw text (Go
`scanner.Text()`, so without the newline) and the result of
`json.Unmarshal` on it — `none` models a decode error.  The decoder is
the external `encoding/json` library, treated as an oracle. -/
structure SrcLine where
  raw : String
  decode : Option Record

/-- `len(line)` in Go counts bytes. -/
def lineLen (l : SrcLine) : ℤ := (l.raw.utf8ByteSize : ℤ)

/-- An opened source file: its lines plus whether `scanner.Err()` reports
an error after the scan loop. -/
structure SrcFile where
  lines : List SrcLine
  scanErr : Bool

/-- The distinct error values a load pass can produce.  In Go these are
distinct `error` values (`modeError` and `memError` are distinct
`errors.New` messages; `ioError`, `decodeError` and `scanError` are the
values returned by `os.Open`, `json.Unmarshal` and `scanner.Err`). -/
inductive LoadError where
  | modeError
  | ioError
  | decodeError
  | scanError
  | memError
  deriving DecidableEq, Repr

/-- Outcome of the scan loop of `LoadDataInMemory`: the temporary maps,
the final `dm.currentUsage` (the Go field is mutated in place, so its
value persists even when the loop exits with an error), and the error if
one occurred. -/
structure InMemPass where
  tempData : List (String × Record)
  tempIndex : IndexMap
  usage : ℤ
  err : Option LoadError

/-- The scan loop of `LoadDataInMemory` (main.go lines 61–84): per line,
decode (failure is fatal); if the key field asserts to `string`, insert
into the temporary data map and record `len(tempData)` after insertion in
the temporary index; then add the line's byte length to the usage counter
and fail if it exceeds the ceiling. -/
def inMemLoop (maxRAM : ℤ) (keyName : String) :
    List SrcLine → List (String × Record) → IndexMap → ℤ → InMemPass
  | [], td, ti, u =>
    { tempData := td, tempIndex := ti, usage := u, err := none }
  | l :: rest, td, ti, u =>
    match l.decode with
    | none => { tempData := td, tempIndex := ti, usage := u, err := some .decodeError }
    | some record =>
      let step : List (String × Record) × IndexMap :=
        match record.lookup keyName with
        | some (.goString key) =>
          let td1 := mapSet td key record
          let inner := (List.lookup keyName ti).getD []
          (td1, mapSet ti keyName (mapSet inner key td1.length))
        | _ => (td, ti)
      let u1 := u + lineLen l
      if maxRAM < u1 then
        { tempData := step.1, tempIndex := step.2, usage := u1, err := some .memError }
      else inMemLoop maxRAM keyName rest step.1 step.2 u1

/-- `LoadDataInMemory` (main.go lines 46–96).  `openResult` is what
`os.Open(filePath)` yields: `none` is an open failure.  Returns the
updated `DataManager` and the returned error, if any; the temporary maps
replace `data` and `index` only on full success. -/
def loadDataInMemory (dm : DataManager) (openResult : Option SrcFile)
    (keyName : String) : DataManager × Option LoadError :=
  if dm.mode ≠ "InMemory" then (dm, some .modeError)
  else
    match openResult with
    | none => (dm, some .ioError)
    | some file =>
      let pass := inMemLoop dm.maxRAMUsage keyName file.lines [] [] dm.currentUsage
      let dm1 := { dm with currentUsage := pass.usage }
      match pass.err with
      | some e => (dm1, some e)
      | none =>
        if file.scanErr then (dm1, some .scanError)
        else ({ dm1 with data := pass.tempData, index := pass.tempIndex }, none)

/-- Outcome of the scan loop of `LoadDataInSplitMode`: accumulated
matches, final usage counter, error if any. -/
structure SplitPass where
  filtered : List Record
  usage : ℤ
  err : Option LoadError

/-- The scan loop of `LoadDataInSplitMode` (main.go lines 113–131): per
line, decode (failure is fatal), append the record to the result when it
matches the conditions, then add the line's byte length to the usage
counter and fail if it exceeds the ceiling. -/
def splitLoop (maxRAM : ℤ) (conditions : List FilterCondition) :
    List SrcLine → List Record → ℤ → SplitPass
  | [], acc, u => { filtered := acc, usage := u, err := none }
  | l :: rest, acc, u =>
    match l.decode with
    | none => { filtered := acc, usage := u, err := some .decodeError }
    | some record =>
      let acc1 := if matchConditions record conditions then acc ++ [record] else acc
      let u1 := u + lineLen l
      if maxRAM < u1 then { filtered := acc1, usage := u1, err := some .memError }
      else splitLoop maxRAM conditions rest acc1 u1

/-- `LoadDataInSplitMode` (main.go lines 99–138).  On any error Go
returns `nil, err`, so the accumulated records are discarded; the
`currentUsage` field mutation persists either way. -/
def loadDataInSplitMode (dm : DataManager) (openResult : Option SrcFile)
    (conditions : List FilterCondition) :
    DataManager × Except LoadError (List Record) :=
  if dm.mode ≠ "Split" then (dm, .error .modeError)
  else
    match openResult with
    | none => (dm, .error .ioError)
    | some file =>
      let pass := splitLoop dm.maxRAMUsage conditions file.lines [] dm.currentUsage
      let dm1 := { dm with currentUsage := pass.usage }
      match pass.err with
      | some e => (dm1, .error e)
      | none =>
        if file.scanErr then (dm1, .error .scanError)
        else (dm1, .ok pass.filtered)

/-- Decoded record of the first sample line (README / spec scenario 1). -/
def recUser1 : Record :=
  [("username", .goString "user1"), ("age", .goFloat 25),
   ("fullname", .goString "James Brown")]

/-- Decoded record of the second sample line. -/
def recUser2 : Record :=
  [("username", .goString "user2"), ("age", .goFloat 35),
   ("fullname", .goString "Alice Jameson")]

/-- Decoded record of the third sample line. -/
def recUser3 : Record :=
  [("username", .goString "user3"), ("age", .goFloat 40),
   ("fullname", .goString "James Smith")]

/-- The three sample source lines with their decoded records. -/
def srcUsers : SrcFile :=
  { lines :=
      [{ raw := "\x7b\"username\":\"user1\",\"age\":25,\"fullname\":\"James Brown\"\x7d",
         decode := some recUser1 },
       { raw := "\x7b\"username\":\"user2\",\"age\":35,\"fullname\":\"Alice Jameson\"\x7d",
         decode := some recUser2 },
       { raw := "\x7b\"username\":\"user3\",\"age\":40,\"fullname\":\"James Smith\"\x7d",
         decode := some recUser3 }],
    scanErr := false }

/-- Conditions of scenario 1: `age > 30` (int) and `fullname contains
"James"` (string). -/
def condsAgeName : List FilterCondition :=
  [{ key := "age", valueType := "int", operator := ">", value := .goInt 30 },
   { key := "fullname", valueType := "string", operator := "contains",
     value := .goString "James" }]

/-- A well-formed 100-byte source line (92 payload characters plus the
8-byte JSON frame). -/
def line100 : SrcLine :=
  { raw := "\x7b\"a\":\"" ++ String.mk (List.replicate 92 'x') ++ "\"\x7d",
    decode := some [("a", .goString (String.mk (List.replicate 92 'x')))] }

/-- A source of five 100-byte lines: 500 bytes in total (spec scenario 4). -/
def src500 : SrcFile :=
  { lines := [line100, line100, line100, line100, line100], scanErr := false }

/-- A well-formed 10-byte source line. -/
def line10 : SrcLine :=
  { raw := "\x7b\"a\":true\x7d", decode := some [("a", .goBool true)] }

/-- A 10-byte single-line source. -/
def src10 : SrcFile := { lines := [line10], scanErr := false }

/-- Does the JSON kind of a record's field value fit the declared type,
including date/datetime fixed-layout parsability?  This mirrors the
field-side type assertions and parses of the `apply*Condition`
functions. -/
def kindMatches (valueType : String) (fv : GoVal) : Bool :=
  match valueType with
  | "int" => match fv with | .goFloat _ => true | _ => false
  | "string" => match fv with | .goString _ => true | _ => false
  | "datetime" => match fv with | .goString s => (parseDateTime s).isSome | _ => false
  | "date" => match fv with | .goString s => (parseDate s).isSome | _ => false
  | "bool" => match fv with | .goBool _ => true | _ => false
  | _ => false

/-- The per-type operator table of the condition evaluators. -/
def opSupported (valueType operator : String) : Bool :=
  match valueType with
  | "int" | "datetime" | "date" =>
    operator == ">" || operator == ">=" || operator == "<" ||
      operator == "<=" || operator == "=="
  | "string" => operator == "contains" || operator == "=="
  | "bool" => operator == "=="
  | _ => false

/-- Does the Go kind of a condition's comparison value fit the declared
type?  An "int" condition requires a Go `int`; "string", "date" and
"datetime" require a `string` (the latter two parseable in their fixed
layout); "bool" requires a `bool`.  This mirrors the value-side type
assertions and parses of the `apply*Condition` functions. -/
def valueMatches (valueType : String) (v : GoVal) : Bool :=
  match valueType with
  | "int" => match v with | .goInt _ => true | _ => false
  | "string" => match v with | .goString _ => true | _ => false
  | "datetime" => match v with | .goString s => (parseDateTime s).isSome | _ => false
  | "date" => match v with | .goString s => (parseDate s).isSome | _ => false
  | "bool" => match v with | .goBool _ => true | _ => false
  | _ => false

/-- The (key, record) pairs a materializing load extracts from the source:
one per line whose decoded record carries a string at the key field. -/
def keyedRecords (keyName : String) (lines : List SrcLine) : List (String × Record) :=
  lines.filterMap (fun l =>
    match l.decode with
    | some record =>
      match record.lookup keyName with
      | some (.goString key) => some (key, record)
      | _ => none
    | none => none)

/-- Total byte count of a list of source lines. -/
def sumLen (ls : List SrcLine) : ℤ := (ls.map lineLen).sum

/-- The single int condition of the sample scenario: `age > 30`. -/
def condAge : FilterCondition :=
  { key := "age", valueType := "int", operator := ">", value := .goInt 30 }

/-- The single string condition of the sample scenario:
`fullname contains "James"`. -/
def condName : FilterCondition :=
  { key := "fullname", valueType := "string", operator := "contains",
    value := .goString "James" }

/-- A source whose single line is not valid JSON: `json.Unmarshal`
fails on it. -/
def badFile : SrcFile :=
  { lines := [{ raw := "not json", decode := none }], scanErr := false }

example : parseDate "2024-02-29" = some (dateKey 2024 2 29) := by decide
example : parseDate "2023-02-29" = none := by decide
example : parseDate "2024-2-9" = none := by decide
example : parseDateTime "2024-09-03 09:00:00" =
    some (dateTimeKey 2024 9 3 9 0 0) := by decide
example : parseDateTime "2024-02-15" = none := by decide
example : strContains "Alice Jameson" "James" = true := by decide
example : strContains "James Brown" "ames B" = true := by decide
example : strContains "James Brown" "brown" = false := by decide

example : lineLen line100 = 100 := by decide
example : lineLen line10 = 10 := by decide
example :
    (loadDataInSplitMode (newDataManager (2 * 1024 * 1024 * 1024) "Split")
      (some srcUsers) condsAgeName).2 = .ok [recUser2, recUser3] := by rfl
example :
    (loadDataInSplitMode (newDataManager 100 "Split") (some src500) []).2 =
      .error .memError := by rfl
example :
    (loadDataInSplitMode (newDataManager 100 "Split") (some src500) []).1.currentUsage =
      200 := by rfl
example :
    (loadDataInSplitMode (newDataManager 15 "Split") (some src10) []).2 =
      .ok [[("a", .goBool true)]] := by rfl
example :
    (loadDataInSplitMode
      ((loadDataInSplitMode (newDataManager 15 "Split") (some src10) []).1)
      (some src10) []).2 = .error .memError := by rfl

theorem matchConditions_eq_all (record : Record) (cs : List FilterCondition) :
    matchConditions record cs = cs.all (evalCondition record) := by
  induction cs with
  | nil => rfl
  | cons c rest ih =>
    cases hc : evalCondition record c <;>
      simp [matchConditions, List.all_cons, hc, ih]

lemma applyIntCondition_kind_false (fv : GoVal) (op : String) (v : GoVal)
    (h : kindMatches "int" fv = false) : applyIntCondition fv op v = false := by
  cases fv <;> first | rfl | exact Bool.noConfusion h

lemma applyStringCondition_kind_false (fv : GoVal) (op : String) (v : GoVal)
    (h : kindMatches "string" fv = false) : applyStringCondition fv op v = false := by
  cases fv <;> first | rfl | exact Bool.noConfusion h

lemma applyDateTimeCondition_kind_false (fv : GoVal) (op : String) (v : GoVal)
    (h : kindMatches "datetime" fv = false) : applyDateTimeCondition fv op v = false := by
  cases fv <;> try rfl
  case goString s =>
    have h2 : (parseDateTime s).isSome = false := h
    cases hp : parseDateTime s with
    | none => simp [applyDateTimeCondition, hp]
    | some d => rw [hp] at h2; exact Bool.noConfusion h2

lemma applyDateCondition_kind_false (fv : GoVal) (op : String) (v : GoVal)
    (h : kindMatches "date" fv = false) : applyDateCondition fv op v = false := by
  cases fv <;> try rfl
  case goString s =>
    have h2 : (parseDate s).isSome = false := h
    cases hp : parseDate s with
    | none => simp [applyDateCondition, hp]
    | some d => rw [hp] at h2; exact Bool.noConfusion h2

lemma applyBoolCondition_kind_false (fv : GoVal) (op : String) (v : GoVal)
    (h : kindMatches "bool" fv = false) : applyBoolCondition fv op v = false := by
  cases fv <;> first | rfl | exact Bool.noConfusion h

lemma applyIntCondition_op_false (fv : GoVal) (op : String) (v : GoVal)
    (h : opSupported "int" op = false) : applyIntCondition fv op v = false := by
  cases fv <;> try rfl
  case goFloat q =>
    cases v <;> try rfl
    case goInt n =>
      simp only [opSupported, Bool.or_eq_false_iff, beq_eq_false_iff_ne] at h
      obtain ⟨⟨⟨⟨h1, h2⟩, h3⟩, h4⟩, h5⟩ := h
      simp only [applyIntCondition]

lemma applyStringCondition_op_false (fv : GoVal) (op : String) (v : GoVal)
    (h : opSupported "string" op = false) : applyStringCondition fv op v = false := by
  cases fv <;> try rfl
  case goString s =>
    cases v <;> try rfl
    case goString s2 =>
      simp only [opSupported, Bool.or_eq_false_iff, beq_eq_false_iff_ne] at h
      obtain ⟨h1, h2⟩ := h
      simp only [applyStringCondition]

lemma applyDateTimeCondition_op_false (fv : GoVal) (op : String) (v : GoVal)
    (h : opSupported "datetime" op = false) : applyDateTimeCondition fv op v = false := by
  cases fv <;> try rfl
  case goString s =>
    cases hp : parseDateTime s with
    | none => simp [applyDateTimeCondition, hp]
    | some d =>
      cases v <;> try (simp [applyDateTimeCondition, hp])
      case goString s2 =>
        cases hq : parseDateTime s2 with
        | none => simp [applyDateTimeCondition, hp, hq]
        | some d2 =>
          simp only [opSupported, Bool.or_eq_false_iff, beq_eq_false_iff_ne] at h
          obtain ⟨⟨⟨⟨h1, h2⟩, h3⟩, h4⟩, h5⟩ := h
          simp only [applyDateTimeCondition, hp, hq]

lemma applyDateCondition_op_false (fv : GoVal) (op : String) (v : GoVal)
    (h : opSupported "date" op = false) : applyDateCondition fv op v = false := by
  cases fv <;> try rfl
  case goString s =>
    cases hp : parseDate s with
    | none => simp [applyDateCondition, hp]
    | some d =>
      cases v <;> try (simp [applyDateCondition, hp])
      case goString s2 =>
        cases hq : parseDate s2 with
        | none => simp [applyDateCondition, hp, hq]
        | some d2 =>
          simp only [opSupported, Bool.or_eq_false_iff, beq_eq_false_iff_ne] at h
          obtain ⟨⟨⟨⟨h1, h2⟩, h3⟩, h4⟩, h5⟩ := h
          simp only [applyDateCondition, hp, hq]

lemma applyBoolCondition_op_false (fv : GoVal) (op : String) (v : GoVal)
    (h : opSupported "bool" op = false) : applyBoolCondition fv op v = false := by
  cases fv <;> try rfl
  case goBool b =>
    cases v <;> try rfl
    case goBool b2 =>
      simp only [opSupported, beq_eq_false_iff_ne] at h
      simp only [applyBoolCondition]

lemma evalCondition_eq_false_of_fail (record : Record) (c : FilterCondition)
    (h : record.lookup c.key = none ∨
      ∀ fv, record.lookup c.key = some fv →
        kindMatches c.valueType fv = false ∨
          opSupported c.valueType c.operator = false) :
    evalCondition record c = false := by
  cases hl : record.lookup c.key with
  | none => simp [evalCondition, hl]
  | some fv =>
    have hfv : kindMatches c.valueType fv = false ∨
        opSupported c.valueType c.operator = false := by
      rcases h with h | h
      · rw [hl] at h; exact Option.noConfusion h
      · exact h fv hl
    simp only [evalCondition, hl]
    split
    · rename_i heq; rw [heq] at hfv
      rcases hfv with hk | ho
      · exact applyIntCondition_kind_false _ _ _ hk
      · exact applyIntCondition_op_false _ _ _ ho
    · rename_i heq; rw [heq] at hfv
      rcases hfv with hk | ho
      · exact applyStringCondition_kind_false _ _ _ hk
      · exact applyStringCondition_op_false _ _ _ ho
    · rename_i heq; rw [heq] at hfv
      rcases hfv with hk | ho
      · exact applyDateTimeCondition_kind_false _ _ _ hk
      · exact applyDateTimeCondition_op_false _ _ _ ho
    · rename_i heq; rw [heq] at hfv
      rcases hfv with hk | ho
      · exact applyDateCondition_kind_false _ _ _ hk
      · exact applyDateCondition_op_false _ _ _ ho
    · rename_i heq; rw [heq] at hfv
      rcases hfv with hk | ho
      · exact applyBoolCondition_kind_false _ _ _ hk
      · exact applyBoolCondition_op_false _ _ _ ho
    · rfl

/-- C1: Fail-closed totality of condition evaluation.  For every record
and every single condition, if the condition's field is absent from the
record, or the field value has the wrong JSON kind for the declared type
(including a date/datetime field string failing fixed-layout parsing), or
the operator is not in the per-type operator table, or the declared type
is outside the five supported ones, then the condition evaluates to false
and `matchConditions` returns false.  The evaluators are total Lean
functions translated from the Go code, which settles that no error or
panic crosses this boundary. -/
theorem matchConditions_fail_closed (record : Record) (c : FilterCondition)
    (h : record.lookup c.key = none ∨
      ∀ fv, record.lookup c.key = some fv →
        kindMatches c.valueType fv = false ∨
          opSupported c.valueType c.operator = false) :
    matchConditions record [c] = false := by
  have he := evalCondition_eq_false_of_fail record c h
  simp [matchConditions, he]

/-- Witness for C1: the sample record has no "salary" field, so an int
condition on "salary" fails closed. -/
theorem matchConditions_fail_closed_witness :
    matchConditions recUser1
      [{ key := "salary", valueType := "int", operator := ">",
         value := .goInt 0 }] = false :=
  matchConditions_fail_closed recUser1
    { key := "salary", valueType := "int", operator := ">", value := .goInt 0 }
    (Or.inl rfl)

lemma applyIntCondition_value_false (fv : GoVal) (op : String) (v : GoVal)
    (h : valueMatches "int" v = false) : applyIntCondition fv op v = false := by
  cases fv <;> try rfl
  case goFloat q => cases v <;> first | rfl | exact Bool.noConfusion h

lemma applyStringCondition_value_false (fv : GoVal) (op : String) (v : GoVal)
    (h : valueMatches "string" v = false) : applyStringCondition fv op v = false := by
  cases fv <;> try rfl
  case goString s => cases v <;> first | rfl | exact Bool.noConfusion h

lemma applyDateTimeCondition_value_false (fv : GoVal) (op : String) (v : GoVal)
    (h : valueMatches "datetime" v = false) : applyDateTimeCondition fv op v = false := by
  cases fv <;> try rfl
  case goString s =>
    cases hp : parseDateTime s with
    | none => simp [applyDateTimeCondition, hp]
    | some d =>
      cases v <;> try (simp [applyDateTimeCondition, hp])
      case goString s2 =>
        have h2 : (parseDateTime s2).isSome = false := h
        cases hq : parseDateTime s2 with
        | none => simp [applyDateTimeCondition, hp, hq]
        | some d2 => rw [hq] at h2; exact Bool.noConfusion h2

lemma applyDateCondition_value_false (fv : GoVal) (op : String) (v : GoVal)
    (h : valueMatches "date" v = false) : applyDateCondition fv op v = false := by
  cases fv <;> try rfl
  case goString s =>
    cases hp : parseDate s with
    | none => simp [applyDateCondition, hp]
    | some d =>
      cases v <;> try (simp [applyDateCondition, hp])
      case goString s2 =>
        have h2 : (parseDate s2).isSome = false := h
        cases hq : parseDate s2 with
        | none => simp [applyDateCondition, hp, hq]
        | some d2 => rw [hq] at h2; exact Bool.noConfusion h2

lemma applyBoolCondition_value_false (fv : GoVal) (op : String) (v : GoVal)
    (h : valueMatches "bool" v = false) : applyBoolCondition fv op v = false := by
  cases fv <;> try rfl
  case goBool b => cases v <;> first | rfl | exact Bool.noConfusion h

lemma evalCondition_eq_false_of_value (record : Record) (c : FilterCondition)
    (h : valueMatches c.valueType c.value = false) :
    evalCondition record c = false := by
  cases hl : record.lookup c.key with
  | none => simp [evalCondition, hl]
  | some fv =>
    simp only [evalCondition, hl]
    split
    · rename_i heq; rw [heq] at h
      exact applyIntCondition_value_false _ _ _ h
    · rename_i heq; rw [heq] at h
      exact applyStringCondition_value_false _ _ _ h
    · rename_i heq; rw [heq] at h
      exact applyDateTimeCondition_value_false _ _ _ h
    · rename_i heq; rw [heq] at h
      exact applyDateCondition_value_false _ _ _ h
    · rename_i heq; rw [heq] at h
      exact applyBoolCondition_value_false _ _ _ h
    · rfl

/-- C9: the fail-closed policy also covers the condition's own comparison
value.  Whenever the declared type's required Go kind does not match the
comparison value — an "int" condition whose value is not a Go `int`, a
"string"/"date"/"datetime" condition whose value is not a string, a
"bool" condition whose value is not a bool, or a "date"/"datetime"
condition whose value string fails fixed-layout parsing — the condition
evaluates to false for every record, including records whose field value
is well-typed and well-formed. -/
theorem matchConditions_value_fail_closed (record : Record) (c : FilterCondition)
    (h : valueMatches c.valueType c.value = false) :
    matchConditions record [c] = false := by
  have he := evalCondition_eq_false_of_value record c h
  simp [matchConditions, he]

/-- Witness for C9: `age > 30.0` with a `float64` comparison value fails
closed even though the record's "age" field is a well-formed number. -/
theorem matchConditions_value_fail_closed_witness :
    matchConditions recUser2
      [{ key := "age", valueType := "int", operator := ">",
         value := .goFloat 30 }] = false :=
  matchConditions_value_fail_closed recUser2
    { key := "age", valueType := "int", operator := ">", value := .goFloat 30 }
    rfl

/-- C7: AND-commutativity of matching.  For a fixed record,
`matchConditions` returns the same boolean on any permutation of the
condition list. -/
theorem matchConditions_perm (record : Record)
    (cs1 cs2 : List FilterCondition) (h : cs1.Perm cs2) :
    matchConditions record cs1 = matchConditions record cs2 := by
  rw [matchConditions_eq_all, matchConditions_eq_all]
  induction h with
  | nil => rfl
  | cons x h ih => simp [List.all_cons, ih]
  | swap x y l =>
    simp only [List.all_cons]
    rw [← Bool.and_assoc, ← Bool.and_assoc, Bool.and_comm (evalCondition record y)]
  | trans h1 h2 ih1 ih2 => exact ih1.trans ih2

/-- Witness for C7: swapping the two sample conditions does not change
the match result on the sample record. -/
theorem matchConditions_perm_witness :
    matchConditions recUser2 [condAge, condName] =
      matchConditions recUser2 [condName, condAge] :=
  matchConditions_perm recUser2 [condAge, condName] [condName, condAge]
    (List.Perm.swap condName condAge [])

/-- C8: Mode-mismatch rejection.  With any configured mode other than
"InMemory", `LoadDataInMemory` returns the mode error with the manager
unchanged, whatever `os.Open` would have yielded (the check precedes the
open, so the result is independent of the source); symmetrically for
`LoadDataInSplitMode` and "Split". -/
theorem mode_mismatch_rejected (dm1 dm2 : DataManager) (o1 o2 : Option SrcFile)
    (k : String) (cs : List FilterCondition)
    (h1 : dm1.mode ≠ "InMemory") (h2 : dm2.mode ≠ "Split") :
    loadDataInMemory dm1 o1 k = (dm1, some .modeError) ∧
    loadDataInSplitMode dm2 o2 cs = (dm2, .error .modeError) := by
  constructor
  · simp [loadDataInMemory, h1]
  · simp [loadDataInSplitMode, h2]

/-- Witness for C8: a "Split"-mode manager rejects `LoadDataInMemory`
even on an unopenable file, and an "InMemory"-mode manager rejects
`LoadDataInSplitMode` even on a readable one. -/
theorem mode_mismatch_rejected_witness :
    loadDataInMemory (newDataManager 5 "Split") none "username" =
      (newDataManager 5 "Split", some .modeError) ∧
    loadDataInSplitMode (newDataManager 5 "InMemory") (some srcUsers) [] =
      (newDataManager 5 "InMemory", .error .modeError) :=
  mode_mismatch_rejected (newDataManager 5 "Split") (newDataManager 5 "InMemory")
    none (some srcUsers) "username" [] (by decide) (by decide)

lemma loadDataInMemory_error_preserves (dm : DataManager) (o : Option SrcFile)
    (k : String) (dm2 : DataManager) (e : LoadError)
    (h : loadDataInMemory dm o k = (dm2, some e)) :
    dm2.data = dm.data ∧ dm2.index = dm.index := by
  by_cases hm : dm.mode = "InMemory"
  · cases o with
    | none =>
      simp [loadDataInMemory, hm] at h
      obtain ⟨rfl, -⟩ := h
      exact ⟨rfl, rfl⟩
    | some file =>
      cases hp : (inMemLoop dm.maxRAMUsage k file.lines [] [] dm.currentUsage).err with
      | some e2 =>
        simp [loadDataInMemory, hm, hp] at h
        obtain ⟨rfl, -⟩ := h
        exact ⟨rfl, rfl⟩
      | none =>
        cases hs : file.scanErr with
        | true =>
          simp [loadDataInMemory, hm, hp, hs] at h
          obtain ⟨rfl, -⟩ := h
          exact ⟨rfl, rfl⟩
        | false =>
          simp [loadDataInMemory, hm, hp, hs] at h
  · simp [loadDataInMemory, hm] at h
    obtain ⟨rfl, -⟩ := h
    exact ⟨rfl, rfl⟩

/-- C2: Atomicity of a failed reload.  After a successful
`LoadDataInMemory`, a subsequent call that fails for any reason (mode
mismatch, open failure, decode failure, memory-limit excess or scanner
error) leaves the installed data map and index map exactly as the earlier
successful load left them. -/
theorem failed_reload_keeps_data (dm dm1 dm2 : DataManager)
    (o1 o2 : Option SrcFile) (k1 k2 : String) (e : LoadError)
    (_hfirst : loadDataInMemory dm o1 k1 = (dm1, none))
    (hsecond : loadDataInMemory dm1 o2 k2 = (dm2, some e)) :
    dm2.data = dm1.data ∧ dm2.index = dm1.index :=
  loadDataInMemory_error_preserves dm1 o2 k2 dm2 e hsecond

/-- Witness for C2: load the three-user source successfully, then reload
from a file whose line fails to decode; data and index are unchanged. -/
theorem failed_reload_keeps_data_witness :
    (loadDataInMemory
        ((loadDataInMemory (newDataManager 1000 "InMemory") (some srcUsers)
          "username").1)
        (some badFile) "username").1.data =
      ((loadDataInMemory (newDataManager 1000 "InMemory") (some srcUsers)
        "username").1).data ∧
    (loadDataInMemory
        ((loadDataInMemory (newDataManager 1000 "InMemory") (some srcUsers)
          "username").1)
        (some badFile) "username").1.index =
      ((loadDataInMemory (newDataManager 1000 "InMemory") (some srcUsers)
        "username").1).index :=
  failed_reload_keeps_data (newDataManager 1000 "InMemory")
    ((loadDataInMemory (newDataManager 1000 "InMemory") (some srcUsers)
      "username").1)
    ((loadDataInMemory
        ((loadDataInMemory (newDataManager 1000 "InMemory") (some srcUsers)
          "username").1)
        (some badFile) "username").1)
    (some srcUsers) (some badFile) "username" "username" .decodeError rfl rfl

lemma splitLoop_nil_conds_ok (maxRAM : ℤ) (lines : List SrcLine) :
    ∀ (acc : List Record) (u : ℤ),
      (splitLoop maxRAM [] lines acc u).err = none →
      (splitLoop maxRAM [] lines acc u).filtered =
        acc ++ lines.filterMap (fun l => l.decode) := by
  induction lines with
  | nil => intro acc u _; simp [splitLoop]
  | cons l rest ih =>
    intro acc u h
    cases hd : l.decode with
    | none => simp [splitLoop, hd] at h
    | some r =>
      by_cases hm : maxRAM < u + lineLen l
      · simp [splitLoop, hd, hm] at h
      · have h2 : (splitLoop maxRAM [] rest (acc ++ [r]) (u + lineLen l)).err = none := by
          simpa [splitLoop, hd, hm, matchConditions] using h
        have h3 := ih (acc ++ [r]) (u + lineLen l) h2
        simp [splitLoop, hd, hm, matchConditions, h3, List.filterMap_cons]

/-- C10: an empty condition list matches every record, and a successful
streaming pass invoked with no conditions returns every successfully
decoded record of the source, in encounter order. -/
theorem empty_conditions_match_all (dm dm2 : DataManager) (file : SrcFile)
    (res : List Record)
    (h : loadDataInSplitMode dm (some file) [] = (dm2, .ok res)) :
    (∀ record : Record, matchConditions record [] = true) ∧
    res = file.lines.filterMap (fun l => l.decode) := by
  refine ⟨fun _ => rfl, ?_⟩
  by_cases hm : dm.mode = "Split"
  · cases hp : (splitLoop dm.maxRAMUsage [] file.lines [] dm.currentUsage).err with
    | some e2 => simp [loadDataInSplitMode, hm, hp] at h
    | none =>
      cases hs : file.scanErr with
      | true => simp [loadDataInSplitMode, hm, hp, hs] at h
      | false =>
        simp [loadDataInSplitMode, hm, hp, hs] at h
        obtain ⟨-, h2⟩ := h
        rw [← h2]
        simpa using splitLoop_nil_conds_ok dm.maxRAMUsage file.lines []
          dm.currentUsage hp
  · simp [loadDataInSplitMode, hm] at h

/-- Witness for C10: streaming the three-user source with no conditions
returns all three records in encounter order. -/
theorem empty_conditions_match_all_witness :
    matchConditions recUser1 [] = true ∧
    ([recUser1, recUser2, recUser3] : List Record) =
      srcUsers.lines.filterMap (fun l => l.decode) := by
  have h := empty_conditions_match_all (newDataManager 1000 "Split")
    ((loadDataInSplitMode (newDataManager 1000 "Split") (some srcUsers) []).1)
    srcUsers [recUser1, recUser2, recUser3] rfl
  exact ⟨h.1 recUser1, h.2⟩

lemma splitLoop_memError_iff (maxRAM : ℤ) (conds : List FilterCondition)
    (lines : List SrcLine) :
    ∀ (acc : List Record) (u : ℤ),
      (∀ l ∈ lines, l.decode.isSome = true) →
      ((splitLoop maxRAM conds lines acc u).err = some .memError ↔
        ∃ k < lines.length, maxRAM < u + sumLen (lines.take (k + 1))) := by
  induction lines with
  | nil => intro acc u _; simp [splitLoop]
  | cons l rest ih =>
    intro acc u hdec
    obtain ⟨r, hr⟩ := Option.isSome_iff_exists.mp (hdec l (by simp))
    by_cases hm : maxRAM < u + lineLen l
    · apply iff_of_true
      · simp [splitLoop, hr, hm]
      · exact ⟨0, by simp, by simpa [sumLen] using hm⟩
    · have hrest : ∀ l2 ∈ rest, l2.decode.isSome = true :=
        fun l2 h2 => hdec l2 (by simp [h2])
      have ihh := ih (if matchConditions r conds then acc ++ [r] else acc)
        (u + lineLen l) hrest
      constructor
      · intro hE
        have hE2 : (splitLoop maxRAM conds rest
            (if matchConditions r conds then acc ++ [r] else acc)
            (u + lineLen l)).err = some .memError := by
          simpa [splitLoop, hr, hm] using hE
        obtain ⟨k, hk, hlt⟩ := ihh.mp hE2
        refine ⟨k + 1, by simpa using Nat.succ_lt_succ hk, ?_⟩
        have hsum : sumLen ((l :: rest).take (k + 1 + 1)) =
            lineLen l + sumLen (rest.take (k + 1)) := by
          simp [sumLen, List.take_succ_cons]
        rw [hsum]
        omega
      · rintro ⟨k, hk, hlt⟩
        cases k with
        | zero =>
          exact absurd (by simpa [sumLen] using hlt) hm
        | succ j =>
          have hj : j < rest.length := by simpa using Nat.lt_of_succ_lt_succ hk
          have hsum : sumLen ((l :: rest).take (j + 1 + 1)) =
              lineLen l + sumLen (rest.take (j + 1)) := by
            simp [sumLen, List.take_succ_cons]
          rw [hsum] at hlt
          have h2 : (splitLoop maxRAM conds rest
              (if matchConditions r conds then acc ++ [r] else acc)
              (u + lineLen l)).err = some .memError :=
            ihh.mpr ⟨j, hj, by omega⟩
          simpa [splitLoop, hr, hm] using h2

/-- C3 amended: the running usage counter is NOT reset at the start of a
streaming pass — it carries over from all earlier passes.  For a source
whose lines all decode, a streaming pass fails with the memory-limit
error exactly when the carried-over counter plus the bytes of some line
prefix of this pass exceeds the ceiling; so whether a pass fails depends
on the counter the manager starts the pass with, not only on the bytes
read during the pass. -/
theorem splitMode_memError_iff (dm : DataManager) (file : SrcFile)
    (conds : List FilterCondition)
    (hmode : dm.mode = "Split")
    (hdec : ∀ l ∈ file.lines, l.decode.isSome = true) :
    ((loadDataInSplitMode dm (some file) conds).2 = .error .memError ↔
      ∃ k < file.lines.length,
        dm.maxRAMUsage < dm.currentUsage + sumLen (file.lines.take (k + 1))) := by
  have core := splitLoop_memError_iff dm.maxRAMUsage conds file.lines []
    dm.currentUsage hdec
  have bridge : (loadDataInSplitMode dm (some file) conds).2 = .error .memError ↔
      (splitLoop dm.maxRAMUsage conds file.lines [] dm.currentUsage).err =
        some .memError := by
    cases hp : (splitLoop dm.maxRAMUsage conds file.lines [] dm.currentUsage).err with
    | some e => simp [loadDataInSplitMode, hmode, hp]
    | none =>
      cases hs : file.scanErr with
      | true => simp [loadDataInSplitMode, hmode, hp, hs]
      | false => simp [loadDataInSplitMode, hmode, hp, hs]
  exact bridge.trans core

/-- Witness for the amended C3: a manager that already consumed 10 bytes
in a first pass fails the second pass over the same 10-byte source with
the memory-limit error under a 15-byte ceiling. -/
theorem splitMode_memError_iff_witness :
    (loadDataInSplitMode
        ((loadDataInSplitMode (newDataManager 15 "Split") (some src10) []).1)
        (some src10) []).2 = .error .memError := by
  have h := splitMode_memError_iff
    ((loadDataInSplitMode (newDataManager 15 "Split") (some src10) []).1)
    src10 [] rfl (by intro l hl; simp [src10] at hl; subst hl; rfl)
  exact h.mpr ⟨0, by decide, by decide⟩

/-- Counterexample to C3 as stated: the 10-byte source `src10` totals at
most the 15-byte ceiling, the first streaming pass over it succeeds, yet
the second identical pass fails with the memory-limit error — the counter
carried over, so it is not reset at the start of each pass. -/
theorem memCounter_not_reset_cex :
    sumLen src10.lines ≤ 15 ∧
    (loadDataInSplitMode (newDataManager 15 "Split") (some src10) []).2 =
      .ok [[("a", .goBool true)]] ∧
    (loadDataInSplitMode
        ((loadDataInSplitMode (newDataManager 15 "Split") (some src10) []).1)
        (some src10) []).2 = .error .memError :=
  ⟨by decide, rfl, rfl⟩

/-- Counterexample to C4 as stated: with a 100-byte ceiling and a fresh
manager, the pass over the well-formed 500-byte source does fail with the
memory-limit error, but only after consuming 200 bytes — the counter at
abort is not below 100, refuting "after consuming fewer than 100 bytes of
input". -/
theorem memCeiling_abort_cex :
    (loadDataInSplitMode (newDataManager 100 "Split") (some src500) []).2 =
      .error .memError ∧
    ¬ ((loadDataInSplitMode (newDataManager 100 "Split")
        (some src500) []).1.currentUsage < 100) :=
  ⟨rfl, by decide⟩

/-- C4 amended: with a 100-byte ceiling and a fresh manager, the
streaming pass over the 500-byte source fails with the memory-limit error
(an error distinct from the decode and I/O errors, carrying no result
set), and the per-line check aborts at the first line that pushes the
cumulative count over the ceiling: 200 bytes are consumed — more than the
100-byte ceiling, less than the full 500-byte source. -/
theorem memCeiling_abort_amended :
    (loadDataInSplitMode (newDataManager 100 "Split") (some src500) []).2 =
      .error .memError ∧
    (loadDataInSplitMode (newDataManager 100 "Split")
        (some src500) []).1.currentUsage = 200 :=
  ⟨rfl, rfl⟩

lemma lookup_eq_none_of_not_mem {α : Type} (m : List (String × α)) (k : String)
    (h : k ∉ m.map Prod.fst) : m.lookup k = none := by
  induction m with
  | nil => rfl
  | cons p rest ih =>
    rcases p with ⟨k1, v1⟩
    simp only [List.map_cons, List.mem_cons, not_or] at h
    obtain ⟨h1, h2⟩ := h
    have hb : (k == k1) = false := beq_eq_false_iff_ne.mpr h1
    simp [List.lookup, hb, ih h2]

lemma lookup_eq_some_of_mem_nodup {α : Type} (m : List (String × α))
    (k : String) (v : α)
    (hnd : (m.map Prod.fst).Nodup) (hm : (k, v) ∈ m) : m.lookup k = some v := by
  induction m with
  | nil => cases hm
  | cons p rest ih =>
    rcases p with ⟨k1, v1⟩
    simp only [List.map_cons, List.nodup_cons] at hnd
    obtain ⟨hk1, hnd2⟩ := hnd
    rcases List.mem_cons.mp hm with heq | hmem
    · cases heq
      simp [List.lookup]
    · have hne : k ≠ k1 := by
        rintro rfl
        exact hk1 (List.mem_map.mpr ⟨(k, v), hmem, rfl⟩)
      have hb : (k == k1) = false := beq_eq_false_iff_ne.mpr hne
      simp [List.lookup, hb, ih hnd2 hmem]

lemma mapSet_append {α : Type} (m : List (String × α)) (k : String) (v : α)
    (h : m.lookup k = none) : mapSet m k v = m ++ [(k, v)] := by
  induction m with
  | nil => rfl
  | cons p rest ih =>
    rcases p with ⟨k1, v1⟩
    by_cases hk : k = k1
    · subst hk
      simp [List.lookup] at h
    · have hb : (k == k1) = false := beq_eq_false_iff_ne.mpr hk
      have h1 : (match k == k1 with
          | true => some v1
          | false => rest.lookup k) = none := h
      rw [hb] at h1
      have h2 : rest.lookup k = none := h1
      have hk2 : ¬ (k1 = k) := fun hh => hk hh.symm
      simp [mapSet, hk2, ih h2]

lemma inMemLoop_step_unkeyed (maxRAM : ℤ) (keyName : String) (l : SrcLine)
    (rest : List SrcLine) (record : Record) (td : List (String × Record))
    (ti : IndexMap) (u : ℤ)
    (hd : l.decode = some record)
    (hk : ∀ key, record.lookup keyName ≠ some (.goString key)) :
    inMemLoop maxRAM keyName (l :: rest) td ti u =
      if maxRAM < u + lineLen l then
        { tempData := td, tempIndex := ti, usage := u + lineLen l,
          err := some .memError }
      else inMemLoop maxRAM keyName rest td ti (u + lineLen l) := by
  cases hkk : record.lookup keyName with
  | none => simp [inMemLoop, hd, hkk]
  | some fv =>
    cases fv with
    | goString key => exact absurd hkk (hk key)
    | goFloat q => simp [inMemLoop, hd, hkk]
    | goInt n => simp [inMemLoop, hd, hkk]
    | goBool b => simp [inMemLoop, hd, hkk]
    | goNull => simp [inMemLoop, hd, hkk]
    | goArr es => simp [inMemLoop, hd, hkk]
    | goObj fs => simp [inMemLoop, hd, hkk]

lemma inMemLoop_step_keyed (maxRAM : ℤ) (keyName : String) (l : SrcLine)
    (rest : List SrcLine) (record : Record) (td : List (String × Record))
    (ti : IndexMap) (u : ℤ) (key : String)
    (hd : l.decode = some record)
    (hk : record.lookup keyName = some (.goString key)) :
    inMemLoop maxRAM keyName (l :: rest) td ti u =
      (let td1 := mapSet td key record
       let ti1 := mapSet ti keyName
         (mapSet ((List.lookup keyName ti).getD []) key td1.length)
       if maxRAM < u + lineLen l then
         { tempData := td1, tempIndex := ti1, usage := u + lineLen l,
           err := some .memError }
       else inMemLoop maxRAM keyName rest td1 ti1 (u + lineLen l)) := by
  simp [inMemLoop, hd, hk]

lemma keyedRecords_cons_unkeyed (keyName : String) (l : SrcLine)
    (rest : List SrcLine) (record : Record)
    (hd : l.decode = some record)
    (hk : ∀ key, record.lookup keyName ≠ some (.goString key)) :
    keyedRecords keyName (l :: rest) = keyedRecords keyName rest := by
  cases hkk : record.lookup keyName with
  | none => simp [keyedRecords, List.filterMap_cons, hd, hkk]
  | some fv =>
    cases fv with
    | goString key => exact absurd hkk (hk key)
    | goFloat q => simp [keyedRecords, List.filterMap_cons, hd, hkk]
    | goInt n => simp [keyedRecords, List.filterMap_cons, hd, hkk]
    | goBool b => simp [keyedRecords, List.filterMap_cons, hd, hkk]
    | goNull => simp [keyedRecords, List.filterMap_cons, hd, hkk]
    | goArr es => simp [keyedRecords, List.filterMap_cons, hd, hkk]
    | goObj fs => simp [keyedRecords, List.filterMap_cons, hd, hkk]

lemma keyedRecords_cons_keyed (keyName : String) (l : SrcLine)
    (rest : List SrcLine) (record : Record) (key : String)
    (hd : l.decode = some record)
    (hk : record.lookup keyName = some (.goString key)) :
    keyedRecords keyName (l :: rest) = (key, record) :: keyedRecords keyName rest := by
  simp [keyedRecords, List.filterMap_cons, hd, hk]

lemma inMemLoop_data_of_ok (maxRAM : ℤ) (keyName : String) (lines : List SrcLine) :
    ∀ (td : List (String × Record)) (ti : IndexMap) (u : ℤ),
      (inMemLoop maxRAM keyName lines td ti u).err = none →
      (td.map Prod.fst ++ (keyedRecords keyName lines).map Prod.fst).Nodup →
      (inMemLoop maxRAM keyName lines td ti u).tempData =
        td ++ keyedRecords keyName lines := by
  induction lines with
  | nil => intro td ti u _ _; simp [inMemLoop, keyedRecords]
  | cons l rest ih =>
    intro td ti u herr hnd
    cases hd : l.decode with
    | none => simp [inMemLoop, hd] at herr
    | some record =>
      by_cases hkey : ∃ key, record.lookup keyName = some (.goString key)
      · obtain ⟨key, hk⟩ := hkey
        rw [keyedRecords_cons_keyed keyName l rest record key hd hk] at hnd ⊢
        rw [inMemLoop_step_keyed maxRAM keyName l rest record td ti u key hd hk]
          at herr ⊢
        by_cases hm2 : maxRAM < u + lineLen l
        · simp [hm2] at herr
        · simp only [] at herr ⊢
          simp [hm2] at herr ⊢
          have h2 : (td.map Prod.fst ++
              key :: (keyedRecords keyName rest).map Prod.fst).Nodup := by
            simpa using hnd
          have hka : key ∉ td.map Prod.fst := fun hmem =>
            (List.disjoint_of_nodup_append h2) hmem (by simp)
          have hset : mapSet td key record = td ++ [(key, record)] :=
            mapSet_append td key record (lookup_eq_none_of_not_mem td key hka)
          rw [hset] at herr ⊢
          have hnd2 : ((td ++ [(key, record)]).map Prod.fst ++
              (keyedRecords keyName rest).map Prod.fst).Nodup := by
            simpa [List.append_assoc] using h2
          rw [ih _ _ _ herr hnd2]
          simp [List.append_assoc]
      · push_neg at hkey
        rw [keyedRecords_cons_unkeyed keyName l rest record hd hkey] at hnd ⊢
        rw [inMemLoop_step_unkeyed maxRAM keyName l rest record td ti u hd hkey]
          at herr ⊢
        by_cases hm2 : maxRAM < u + lineLen l
        · simp [hm2] at herr
        · simp [hm2] at herr ⊢
          exact ih _ _ _ herr hnd

/-- C5: Dataset content round-trip.  After a successful materializing
load of a source whose string-keyed records have pairwise-distinct keys,
the installed data map is exactly the list of (key, record) pairs of the
source — one entry per source record whose key field is a string, records
with an absent or non-string key field silently excluded — and looking up
each key returns the decoded record of its source line, field for
field. -/
theorem load_roundTrip (dm : DataManager) (file : SrcFile) (keyName : String)
    (dm2 : DataManager)
    (hload : loadDataInMemory dm (some file) keyName = (dm2, none))
    (hnodup : ((keyedRecords keyName file.lines).map Prod.fst).Nodup) :
    dm2.data = keyedRecords keyName file.lines ∧
    ∀ k r, (k, r) ∈ keyedRecords keyName file.lines →
      dm2.data.lookup k = some r := by
  by_cases hm : dm.mode = "InMemory"
  · cases hp : (inMemLoop dm.maxRAMUsage keyName file.lines [] []
        dm.currentUsage).err with
    | some e => simp [loadDataInMemory, hm, hp] at hload
    | none =>
      cases hs : file.scanErr with
      | true => simp [loadDataInMemory, hm, hp, hs] at hload
      | false =>
        simp only [loadDataInMemory, hm] at hload
        simp [hp, hs] at hload
        have hmain := inMemLoop_data_of_ok dm.maxRAMUsage keyName file.lines
          [] [] dm.currentUsage hp (by simpa using hnodup)
        have hdata : dm2.data = keyedRecords keyName file.lines := by
          rw [← hload]
          simpa using hmain
        refine ⟨hdata, fun k r hmem => ?_⟩
        rw [hdata]
        exact lookup_eq_some_of_mem_nodup _ _ _ hnodup hmem
  · simp [loadDataInMemory, hm] at hload

/-- Witness for C5: loading the three-user source by "username" installs
exactly the three keyed records, and looking up "user2" returns its
record. -/
theorem load_roundTrip_witness :
    (loadDataInMemory (newDataManager 1000 "InMemory") (some srcUsers)
      "username").1.data = keyedRecords "username" srcUsers.lines ∧
    ((loadDataInMemory (newDataManager 1000 "InMemory") (some srcUsers)
      "username").1.data.lookup "user2") = some recUser2 := by
  have h := load_roundTrip (newDataManager 1000 "InMemory") srcUsers "username"
    ((loadDataInMemory (newDataManager 1000 "InMemory") (some srcUsers)
      "username").1)
    rfl (by decide)
  refine ⟨h.1, h.2 "user2" recUser2 ?_⟩
  have hkr : keyedRecords "username" srcUsers.lines =
      [("user1", recUser1), ("user2", recUser2), ("user3", recUser3)] := rfl
  rw [hkr]
  exact List.mem_cons_of_mem _ (List.mem_cons_self _ _)

/-- C6: streaming the three-line sample source under the conditions
`age > 30` (int) AND `fullname contains "James"` (string) returns exactly
user2's and user3's records, in encounter order: user1 fails on age,
user2 and user3 pass both conditions, and results are appended in the
order the lines are scanned. -/
theorem split_filter_scenario :
    (loadDataInSplitMode (newDataManager (2 * 1024 * 1024 * 1024) "Split")
      (some srcUsers) condsAgeName).2 = .ok [recUser2, recUser3] := rfl
